import Mathlib

/-!
Verification of the broker applications controller
(`src/backend/src/api/brokers/applications/list-applications/list-applications.controller.ts`).

The controller exposes two operations:
* `find` — lists a broker's applications, composing a filter specification
  from a date range, a completion flag, and a status set;
* `post` — submits a new application and classifies its loan amount against
  the average of the existing applications.

The embedding below translates the controller's logic into pure Lean
functions.  Loan amounts are modelled as rationals, timestamps as integers,
identifiers as naturals.  Database effects (the `findAll` query and `create`
insert) are modelled by explicit state passing over a list of records, and
`console.log` by explicit passing of a list of log lines.
-/

namespace BrokerApplications

/-- Application statuses.  The enum file `src/enums/application-status.enum.ts`
is not part of the provided sources; the spec lists "Submitted, Approved,
Rejected, …". -/
inductive ApplicationStatus where
  | Submitted
  | Approved
  | Rejected
  deriving DecidableEq, Repr

/-- Task statuses.  The enum file `src/enums/task-status.enum.ts` is not part
of the provided sources; the spec and the controller use Pending and
Completed. -/
inductive TaskStatus where
  | Pending
  | Completed
  deriving DecidableEq, Repr

/-- An application record (`src/models/applications/application.entity.ts`,
fields as described by the spec's data model). -/
structure Application where
  id : Nat
  brokerId : Nat
  status : ApplicationStatus
  loanAmount : Rat
  createdAt : Int
  deriving DecidableEq, Repr

/-- A task record (`src/models/tasks/task.entity.ts`, fields as described by
the spec's data model and as used in the controller's join clause). -/
structure Task where
  id : Nat
  assignedToBrokerId : Nat
  status : TaskStatus
  applicationId : Nat
  deriving DecidableEq, Repr

/-- The authenticated broker (`BrokerDto`); the controller only reads
`user.id`. -/
structure BrokerDto where
  id : Nat
  deriving DecidableEq, Repr

/-- The list query payload (`BrokerApplicationsListRequestDto`): optional date
bounds, an optional completion flag, and an optional status set.  A present
but empty status array is distinct from an absent one, mirroring the
JavaScript value, where an empty array is still truthy. -/
structure ListQuery where
  minimumDate : Option Int
  maximumDate : Option Int
  completed : Option Bool
  status : Option (List ApplicationStatus)
  deriving DecidableEq, Repr

/-- The submission payload (`ApplicationDto`); the classification logic reads
only `loanAmount`. -/
structure ApplicationDto where
  loanAmount : Rat
  deriving DecidableEq, Repr

/-- The date constraint on `createdAt` produced by `createDateFilter`. -/
inductive DateFilter where
  | noFilter
  | ge (minimumDate : Int)
  | le (maximumDate : Int)
  | between (minimumDate maximumDate : Int)
  deriving DecidableEq, Repr

/-- Modelled from the spec: `createDateFilter` lives in
`src/common/query-filters`, which is not part of the provided sources.  Per
spec §4.1: both bounds give an inclusive range, a single bound gives a
one-sided constraint, no bounds give no constraint, and an inverted pair
(minimum chronologically after maximum) fails with an `InvalidRange` error. -/
def createDateFilter (minimumDate maximumDate : Option Int) : Except String DateFilter :=
  match minimumDate, maximumDate with
  | none, none => Except.ok DateFilter.noFilter
  | some mn, none => Except.ok (DateFilter.ge mn)
  | none, some mx => Except.ok (DateFilter.le mx)
  | some mn, some mx =>
      if mx < mn then Except.error "InvalidRange" else Except.ok (DateFilter.between mn mx)

/-- The join clause pushed onto `relatedData` in `find`: a Task constrained by
status and assignee, with `required` saying whether the join is mandatory
(Sequelize `required` defaults to `true` when a `where` is given; the
controller sets `required: false` explicitly on the Pending branch). -/
structure TaskInclude where
  status : TaskStatus
  assignedToBrokerId : Nat
  required : Bool
  deriving DecidableEq, Repr

/-- The `whereOptions` object in `find`: broker scoping, the date filter, and
the optional `Op.in` status constraint. -/
structure WhereOptions where
  brokerId : Nat
  dateFilter : DateFilter
  status : Option (List ApplicationStatus)
  deriving DecidableEq, Repr

/-- The specification handed to `findAll`: the `where` options plus the
`include` clause. -/
structure FilterSpec where
  whereOptions : WhereOptions
  relatedData : TaskInclude
  deriving DecidableEq, Repr

/-- Filter-composition part of `find` (controller lines 87–119): build the
date filter, the task join clause, and the where options.  The console is
passed explicitly; the controller logs `whereOptions` exactly when the status
branch is taken.  Returns the updated console and either the composed
specification or the error message thrown by `createDateFilter`. -/
def buildSpecWithLog (user : BrokerDto) (query : ListQuery) (console : List String) :
    List String × Except String FilterSpec :=
  match createDateFilter query.minimumDate query.maximumDate with
  | Except.error e => (console, Except.error e)
  | Except.ok dateFilter =>
      let relatedData : TaskInclude :=
        if query.completed = some true then
          { status := TaskStatus.Completed, assignedToBrokerId := user.id, required := true }
        else
          { status := TaskStatus.Pending, assignedToBrokerId := user.id, required := false }
      let whereOptions : WhereOptions :=
        { brokerId := user.id, dateFilter := dateFilter, status := query.status }
      let console' :=
        if query.status.isSome then console ++ [reprStr whereOptions] else console
      (console', Except.ok { whereOptions := whereOptions, relatedData := relatedData })

/-- Whether a timestamp satisfies a date filter (inclusive bounds). -/
def dateMatches : DateFilter → Int → Bool
  | DateFilter.noFilter, _ => true
  | DateFilter.ge mn, d => decide (mn ≤ d)
  | DateFilter.le mx, d => decide (d ≤ mx)
  | DateFilter.between mn mx, d => decide (mn ≤ d) && decide (d ≤ mx)

/-- Whether an application satisfies the `where` options: broker scoping, the
date filter, and (when present) `Op.in` membership of the status set. -/
def appMatches (w : WhereOptions) (app : Application) : Bool :=
  decide (app.brokerId = w.brokerId) && dateMatches w.dateFilter app.createdAt &&
    (match w.status with
     | none => true
     | some l => decide (app.status ∈ l))

/-- Whether a task satisfies the join clause's `where`. -/
def taskMatches (inc : TaskInclude) (t : Task) : Bool :=
  decide (t.status = inc.status) && decide (t.assignedToBrokerId = inc.assignedToBrokerId)

/-- The task joined to an application under the include clause: the first task
related to the application that satisfies the clause's `where`. -/
def matchTask (inc : TaskInclude) (tasks : List Task) (app : Application) : Option Task :=
  tasks.find? (fun t => decide (t.applicationId = app.id) && taskMatches inc t)

/-- Semantics of `findAll` under a composed specification: keep the
applications satisfying the `where` options; annotate each with its joined
task; under a mandatory join (`required = true`) drop the applications with
no matching task, under an optional join keep them with no task. -/
def runFind (spec : FilterSpec) (apps : List Application) (tasks : List Task) :
    List (Application × Option Task) :=
  (apps.filter (fun a => appMatches spec.whereOptions a)).filterMap (fun app =>
    match matchTask spec.relatedData tasks app with
    | some t => some (app, some t)
    | none => if spec.relatedData.required then none else some (app, none))

/-- The abstract data store read by `find`. -/
structure Db where
  apps : List Application
  tasks : List Task

/-- An HTTP error as thrown by the controller (`HttpException`). -/
structure HttpError where
  message : String
  statusCode : Nat
  deriving DecidableEq, Repr

/-- The `find` response body. -/
structure FindResponse where
  success : Bool
  applications : List (Application × Option Task)
  deriving DecidableEq, Repr

/-- The full `find` handler (controller lines 83–128): compose the filter
specification (re-throwing a date-filter failure as a 400 Bad Request), run
the query, and return the applications with `success: true`. -/
def find (user : BrokerDto) (query : ListQuery) (db : Db) (console : List String) :
    List String × Except HttpError FindResponse :=
  let built := buildSpecWithLog user query console
  match built.2 with
  | Except.error e => (built.1, Except.error { message := e, statusCode := 400 })
  | Except.ok spec =>
      (built.1, Except.ok { success := true, applications := runFind spec db.apps db.tasks })

/-- Modelled from the spec: `getAverageLoanAmount` is declared on the
Application entity, whose file is not part of the provided sources.  Per spec
§4.3 it is the arithmetic mean of `loanAmount` over all existing application
records; the empty collection must not divide by zero, so it yields 0 there. -/
def getAverageLoanAmount (apps : List Application) : Rat :=
  if apps.isEmpty then 0 else (apps.map (fun a => a.loanAmount)).sum / (apps.length : Rat)

/-- The `post` response body (`BrokerApplicationPostResponseDto`): the echoed
loan amount is nullable. -/
structure PostResponse where
  success : Bool
  loanAmount : Option Rat
  message : String
  deriving DecidableEq, Repr

/-- The `post` handler (controller lines 149–169), with the applications table
passed as explicit state.  `now` and the fresh identifier stand for the
values the persistence layer assigns to `createdAt` and `id`.  Mirrors the
source order: fetch the average, compute the nullable echo, persist the new
record (status Submitted, broker set to the actor), then classify. -/
def post (user : BrokerDto) (body : ApplicationDto) (st : List Application) (now : Int) :
    List Application × PostResponse :=
  let avgLoanAmount := getAverageLoanAmount st
  let loanAmount : Option Rat :=
    if body.loanAmount ≠ avgLoanAmount then some body.loanAmount else none
  let st' := st ++ [{ id := st.length, brokerId := user.id,
                      status := ApplicationStatus.Submitted,
                      loanAmount := body.loanAmount, createdAt := now }]
  let loanAmountStatus : String :=
    if body.loanAmount > avgLoanAmount then "above"
    else if body.loanAmount < avgLoanAmount then "below"
    else "at"
  (st', { success := true, loanAmount := loanAmount,
          message := "Loan amount is " ++ loanAmountStatus ++ " average" })

/-- Sample query with no filters, used by witnesses. -/
def q₀ : ListQuery :=
  { minimumDate := none, maximumDate := none, completed := none, status := none }

/-- The specification `find` composes for broker 1 and the empty query `q₀`. -/
def spec₀ : FilterSpec :=
  { whereOptions := { brokerId := 1, dateFilter := DateFilter.noFilter, status := none },
    relatedData :=
      { status := TaskStatus.Pending, assignedToBrokerId := 1, required := false } }

/-- Sample application owned by broker 2, used by witnesses. -/
def app₂ : Application :=
  { id := 10, brokerId := 2, status := ApplicationStatus.Submitted,
    loanAmount := 5, createdAt := 0 }

/-- Inversion of a successful filter composition: the date filter succeeded,
and the specification is exactly the one built from it. -/
theorem buildSpec_ok_inv (u : BrokerDto) (q : ListQuery) (console : List String)
    (spec : FilterSpec) (h : (buildSpecWithLog u q console).2 = Except.ok spec) :
    ∃ df, createDateFilter q.minimumDate q.maximumDate = Except.ok df ∧
      spec = { whereOptions := { brokerId := u.id, dateFilter := df, status := q.status },
               relatedData :=
                 if q.completed = some true then
                   { status := TaskStatus.Completed, assignedToBrokerId := u.id,
                     required := true }
                 else
                   { status := TaskStatus.Pending, assignedToBrokerId := u.id,
                     required := false } } := by
  unfold buildSpecWithLog at h
  cases hdf : createDateFilter q.minimumDate q.maximumDate with
  | error e => rw [hdf] at h; exact absurd h (by simp)
  | ok df =>
      rw [hdf] at h
      simp only at h
      exact ⟨df, rfl, (Except.ok.injEq _ _ ▸ h).symm⟩

/-- C1: for every actor identifier and every choice of the other query
parameters, the composed specification constrains the Application predicate
with `brokerId = actorId` and the Task join clause with
`assignedToBrokerId = actorId`, so for any other broker B it matches no
application and no task owned by B. -/
theorem find_actor_scoping (u : BrokerDto) (q : ListQuery) (console : List String)
    (B : Nat) (hne : u.id ≠ B) (spec : FilterSpec)
    (hspec : (buildSpecWithLog u q console).2 = Except.ok spec) :
    spec.whereOptions.brokerId = u.id ∧
    spec.relatedData.assignedToBrokerId = u.id ∧
    (∀ app : Application, app.brokerId = B → appMatches spec.whereOptions app = false) ∧
    (∀ t : Task, t.assignedToBrokerId = B → taskMatches spec.relatedData t = false) := by
  obtain ⟨df, hdf, rfl⟩ := buildSpec_ok_inv u q console spec hspec
  refine ⟨rfl, by split <;> rfl, ?_, ?_⟩
  · intro app happ
    have hb : app.brokerId ≠ u.id := by rw [happ]; exact fun h => hne h.symm
    simp [appMatches, hb]
  · intro t ht
    have hb : ∀ inc : TaskInclude, inc.assignedToBrokerId = u.id →
        taskMatches inc t = false := by
      intro inc hinc
      have : t.assignedToBrokerId ≠ inc.assignedToBrokerId := by
        rw [ht, hinc]; exact fun h => hne h.symm
      simp [taskMatches, this]
    split <;> exact hb _ rfl

/-- Witness for C1 at broker 1, the empty query, and an application and a task
owned by broker 2. -/
theorem find_actor_scoping_witness :
    (1 : Nat) ≠ 2 ∧ (buildSpecWithLog ⟨1⟩ q₀ []).2 = Except.ok spec₀ ∧
    appMatches spec₀.whereOptions app₂ = false ∧
    taskMatches spec₀.relatedData
      { id := 3, assignedToBrokerId := 2, status := TaskStatus.Pending,
        applicationId := 10 } = false := by
  refine ⟨by decide, by rfl, ?_, ?_⟩
  · exact (find_actor_scoping ⟨1⟩ q₀ [] 2 (by decide) spec₀ (by rfl)).2.2.1 app₂ rfl
  · exact (find_actor_scoping ⟨1⟩ q₀ [] 2 (by decide) spec₀ (by rfl)).2.2.2 _ rfl

/-- C3: when the minimum date is chronologically after the maximum date, the
list operation fails with the `InvalidRange` error surfaced as an HTTP 400
Bad Request, and yields no result. -/
theorem find_invalid_range (u : BrokerDto) (q : ListQuery) (db : Db)
    (console : List String) (mn mx : Int) (hmin : q.minimumDate = some mn)
    (hmax : q.maximumDate = some mx) (hlt : mx < mn) :
    (find u q db console).2 =
      Except.error { message := "InvalidRange", statusCode := 400 } := by
  simp [find, buildSpecWithLog, createDateFilter, hmin, hmax, hlt]

/-- Witness for C3: minimum 5 after maximum 3 gives a 400 `InvalidRange`. -/
theorem find_invalid_range_witness :
    ({ minimumDate := some 5, maximumDate := some 3, completed := none,
       status := none : ListQuery }).minimumDate = some 5 ∧
    (find ⟨1⟩ { minimumDate := some 5, maximumDate := some 3, completed := none,
                status := none } ⟨[], []⟩ []).2 =
      Except.error { message := "InvalidRange", statusCode := 400 } :=
  ⟨rfl, find_invalid_range ⟨1⟩ _ ⟨[], []⟩ [] 5 3 rfl rfl (by decide)⟩

/-- C7: when a status set is supplied, the composed Application predicate
additionally requires membership of that set; when the status parameter is
omitted, no status constraint is applied — the predicate does not depend on
the application's status. -/
theorem find_status_filter (u : BrokerDto) (q : ListQuery) (console : List String)
    (spec : FilterSpec) (hspec : (buildSpecWithLog u q console).2 = Except.ok spec) :
    (∀ l, q.status = some l →
      spec.whereOptions.status = some l ∧
      ∀ app : Application, appMatches spec.whereOptions app = true → app.status ∈ l) ∧
    (q.status = none →
      spec.whereOptions.status = none ∧
      ∀ app₁ app₂ : Application, app₁.brokerId = app₂.brokerId →
        app₁.createdAt = app₂.createdAt →
        appMatches spec.whereOptions app₁ = appMatches spec.whereOptions app₂) := by
  obtain ⟨df, hdf, rfl⟩ := buildSpec_ok_inv u q console spec hspec
  constructor
  · intro l hl
    refine ⟨by simp [hl], ?_⟩
    intro app happ
    simp only [appMatches, hl, Bool.and_eq_true, decide_eq_true_eq] at happ
    exact happ.2
  · intro hnone
    refine ⟨by simp [hnone], ?_⟩
    intro app₁ app₂ hb hd
    simp [appMatches, hnone, hb, hd]

/-- Witness for C7: a query carrying the status set `[Approved]` yields a
specification whose predicate forces membership, checked on a concrete
matching application. -/
theorem find_status_filter_witness :
    ({ minimumDate := none, maximumDate := none, completed := none,
       status := some [ApplicationStatus.Approved] : ListQuery }).status =
      some [ApplicationStatus.Approved] ∧
    ({ id := 1, brokerId := 1, status := ApplicationStatus.Approved,
       loanAmount := 5, createdAt := 0 : Application }).status ∈
      [ApplicationStatus.Approved] := by
  refine ⟨rfl, ?_⟩
  exact ((find_status_filter ⟨1⟩
      { minimumDate := none, maximumDate := none, completed := none,
        status := some [ApplicationStatus.Approved] } []
      { whereOptions := { brokerId := 1, dateFilter := DateFilter.noFilter,
                          status := some [ApplicationStatus.Approved] },
        relatedData := { status := TaskStatus.Pending, assignedToBrokerId := 1,
                         required := false } } (by rfl)).1
    [ApplicationStatus.Approved] rfl).2 _ (by decide)

/-- A list query has valid date bounds when, whenever both are present, the
minimum is at most the maximum. -/
def validRange (q : ListQuery) : Prop :=
  ∀ mn mx, q.minimumDate = some mn → q.maximumDate = some mx → mn ≤ mx

/-- C8: for valid inputs, filter composition is deterministic and the
diagnostic logging does not affect the returned specification: the composed
specification is the same whatever the prior console state, and composition
succeeds. -/
theorem find_compose_deterministic (u : BrokerDto) (q : ListQuery)
    (console₁ console₂ : List String) (h : validRange q) :
    (buildSpecWithLog u q console₁).2 = (buildSpecWithLog u q console₂).2 ∧
    ∃ spec, (buildSpecWithLog u q console₁).2 = Except.ok spec := by
  have hok : ∃ df, createDateFilter q.minimumDate q.maximumDate = Except.ok df := by
    unfold createDateFilter
    cases hmn : q.minimumDate with
    | none => cases q.maximumDate <;> exact ⟨_, rfl⟩
    | some mn =>
        cases hmx : q.maximumDate with
        | none => exact ⟨_, rfl⟩
        | some mx =>
            have : ¬ mx < mn := not_lt.mpr (h mn mx hmn hmx)
            simp [this]
  obtain ⟨df, hdf⟩ := hok
  unfold buildSpecWithLog
  rw [hdf]
  exact ⟨rfl, _, rfl⟩

/-- Sample query with a lower date bound and the completed flag set, used by
witnesses. -/
def qRange : ListQuery :=
  { minimumDate := some 2, maximumDate := none, completed := some true,
    status := none }

/-- Witness for C8: the specification composed for a valid one-sided date
range is independent of the console contents, and composition succeeds. -/
theorem find_compose_deterministic_witness :
    validRange qRange ∧
    ((buildSpecWithLog ⟨1⟩ qRange []).2 =
        (buildSpecWithLog ⟨1⟩ qRange ["earlier log line"]).2 ∧
      ∃ spec, (buildSpecWithLog ⟨1⟩ qRange []).2 = Except.ok spec) := by
  have hv : validRange qRange := by
    intro mn mx hmn hmx
    exact absurd hmx (by simp [qRange])
  exact ⟨hv, find_compose_deterministic ⟨1⟩ qRange [] ["earlier log line"] hv⟩

/-- C9: a present-but-empty status set still becomes a membership constraint
over the empty set, so no application matches and the result list is empty;
the empty set is not treated like an omitted status parameter. -/
theorem find_empty_status_set (u : BrokerDto) (q : ListQuery) (db : Db)
    (console : List String) (hstatus : q.status = some []) (spec : FilterSpec)
    (hspec : (buildSpecWithLog u q console).2 = Except.ok spec) :
    spec.whereOptions.status = some [] ∧
    (∀ app : Application, appMatches spec.whereOptions app = false) ∧
    (find u q db console).2 =
      Except.ok { success := true, applications := [] } := by
  obtain ⟨df, hdf, hs⟩ := buildSpec_ok_inv u q console spec hspec
  have hw : spec.whereOptions.status = some [] := by rw [hs]; simp [hstatus]
  have hnomatch : ∀ app : Application, appMatches spec.whereOptions app = false := by
    intro app
    simp [appMatches, hw]
  refine ⟨hw, hnomatch, ?_⟩
  have hrun : runFind spec db.apps db.tasks = [] := by
    unfold runFind
    have : db.apps.filter (fun a => appMatches spec.whereOptions a) = [] :=
      List.filter_eq_nil_iff.mpr (fun a _ => by simp [hnomatch a])
    rw [this]
    rfl
  simp [find, hspec, hrun]

/-- Witness for C9: an empty status array on an otherwise-matching database
yields the empty result list. -/
theorem find_empty_status_set_witness :
    ({ minimumDate := none, maximumDate := none, completed := none,
       status := some [] : ListQuery }).status = some ([] : List ApplicationStatus) ∧
    (find ⟨1⟩ { minimumDate := none, maximumDate := none, completed := none,
                status := some [] }
      ⟨[{ id := 1, brokerId := 1, status := ApplicationStatus.Submitted,
          loanAmount := 5, createdAt := 0 }], []⟩ []).2 =
      Except.ok { success := true, applications := [] } :=
  ⟨rfl, (find_empty_status_set ⟨1⟩ _ _ [] rfl
      { whereOptions := { brokerId := 1, dateFilter := DateFilter.noFilter,
                          status := some [] },
        relatedData := { status := TaskStatus.Pending, assignedToBrokerId := 1,
                         required := false } } (by rfl)).2.2⟩

/-- Under a mandatory join, an application with no matching task appears in no
result row. -/
theorem runFind_required_excludes (spec : FilterSpec) (apps : List Application)
    (tasks : List Task) (hreq : spec.relatedData.required = true)
    (app : Application) (hnone : matchTask spec.relatedData tasks app = none)
    (ot : Option Task) : (app, ot) ∉ runFind spec apps tasks := by
  intro hmem
  simp only [runFind, List.mem_filterMap, List.mem_filter] at hmem
  obtain ⟨a, ⟨ha, hmatch⟩, hf⟩ := hmem
  cases hma : matchTask spec.relatedData tasks a with
  | some t =>
      rw [hma] at hf
      simp only [Option.some.injEq, Prod.mk.injEq] at hf
      obtain ⟨rfl, rfl⟩ := hf
      rw [hnone] at hma
      exact Option.noConfusion hma
  | none =>
      rw [hma] at hf
      simp [hreq] at hf

/-- Under an optional join, an application satisfying the `where` options but
with no matching task still appears, with no task attached. -/
theorem runFind_optional_includes (spec : FilterSpec) (apps : List Application)
    (tasks : List Task) (hreq : spec.relatedData.required = false)
    (app : Application) (happ : app ∈ apps)
    (hm : appMatches spec.whereOptions app = true)
    (hnone : matchTask spec.relatedData tasks app = none) :
    (app, (none : Option Task)) ∈ runFind spec apps tasks := by
  simp only [runFind, List.mem_filterMap, List.mem_filter]
  refine ⟨app, ⟨happ, hm⟩, ?_⟩
  rw [hnone]
  simp [hreq]

/-- C2: when the completed flag is true the composed join clause requires a
Completed task assigned to the actor and is mandatory — applications with no
matching task are excluded; when the flag is false or absent the join clause
requires a Pending task assigned to the actor and is optional — applications
with no matching task are still returned, with no task attached. -/
theorem find_completed_join (u : BrokerDto) (q : ListQuery) (db : Db)
    (console : List String) (spec : FilterSpec)
    (hspec : (buildSpecWithLog u q console).2 = Except.ok spec) :
    (q.completed = some true →
      spec.relatedData =
        { status := TaskStatus.Completed, assignedToBrokerId := u.id,
          required := true } ∧
      ∀ app : Application, matchTask spec.relatedData db.tasks app = none →
        ∀ ot : Option Task, (app, ot) ∉ runFind spec db.apps db.tasks) ∧
    (q.completed ≠ some true →
      spec.relatedData =
        { status := TaskStatus.Pending, assignedToBrokerId := u.id,
          required := false } ∧
      ∀ app ∈ db.apps, appMatches spec.whereOptions app = true →
        matchTask spec.relatedData db.tasks app = none →
        (app, (none : Option Task)) ∈ runFind spec db.apps db.tasks) := by
  obtain ⟨df, hdf, hs⟩ := buildSpec_ok_inv u q console spec hspec
  constructor
  · intro hc
    have hrel : spec.relatedData =
        { status := TaskStatus.Completed, assignedToBrokerId := u.id,
          required := true } := by rw [hs]; simp [hc]
    refine ⟨hrel, ?_⟩
    intro app hnone ot
    exact runFind_required_excludes spec db.apps db.tasks (by rw [hrel]) app hnone ot
  · intro hc
    have hrel : spec.relatedData =
        { status := TaskStatus.Pending, assignedToBrokerId := u.id,
          required := false } := by rw [hs]; simp [hc]
    refine ⟨hrel, ?_⟩
    intro app happ hm hnone
    exact runFind_optional_includes spec db.apps db.tasks (by rw [hrel]) app happ hm hnone

/-- Sample application owned by broker 1, used by witnesses. -/
def app₁ : Application :=
  { id := 1, brokerId := 1, status := ApplicationStatus.Submitted,
    loanAmount := 5, createdAt := 3 }

/-- The specification `find` composes for broker 1 and the query `qRange`
(completed flag set, lower date bound 2). -/
def specC : FilterSpec :=
  { whereOptions := { brokerId := 1, dateFilter := DateFilter.ge 2, status := none },
    relatedData :=
      { status := TaskStatus.Completed, assignedToBrokerId := 1, required := true } }

/-- Witness for C2: with the completed flag set and no tasks in the store, the
matching application is excluded; with the flag absent it is returned with no
task attached. -/
theorem find_completed_join_witness :
    qRange.completed = some true ∧ q₀.completed ≠ some true ∧
    (app₁, (none : Option Task)) ∉ runFind specC [app₁] [] ∧
    (app₁, (none : Option Task)) ∈ runFind spec₀ [app₁] [] := by
  refine ⟨rfl, by decide, ?_, ?_⟩
  · exact ((find_completed_join ⟨1⟩ qRange ⟨[app₁], []⟩ [] specC (by rfl)).1
      rfl).2 app₁ (by rfl) none
  · exact ((find_completed_join ⟨1⟩ q₀ ⟨[app₁], []⟩ [] spec₀ (by rfl)).2
      (by decide)).2 app₁ (by simp) (by decide) (by rfl)

/-- C4: the returned `loanAmount` echoes the submitted amount when it differs
from the pre-submission average, and is null when it exactly equals it. -/
theorem post_loan_amount_echo (u : BrokerDto) (body : ApplicationDto)
    (st : List Application) (now : Int) :
    (body.loanAmount ≠ getAverageLoanAmount st →
      (post u body st now).2.loanAmount = some body.loanAmount) ∧
    (body.loanAmount = getAverageLoanAmount st →
      (post u body st now).2.loanAmount = none) := by
  constructor <;> intro h <;> simp [post, h]

/-- Sample store holding one application with loan amount 100, used by
witnesses; its average loan amount is 100. -/
def st₁ : List Application :=
  [{ id := 0, brokerId := 1, status := ApplicationStatus.Submitted,
     loanAmount := 100, createdAt := 0 }]

/-- The average loan amount over the sample store `st₁` is 100. -/
theorem getAverageLoanAmount_st₁ : getAverageLoanAmount st₁ = 100 := by
  norm_num [getAverageLoanAmount, st₁]

/-- Witness for C4: against an average of 100, submitting 120 echoes 120 and
submitting 100 suppresses the echo. -/
theorem post_loan_amount_echo_witness :
    (120 : Rat) ≠ getAverageLoanAmount st₁ ∧
    (post ⟨1⟩ ⟨120⟩ st₁ 7).2.loanAmount = some 120 ∧
    (100 : Rat) = getAverageLoanAmount st₁ ∧
    (post ⟨1⟩ ⟨100⟩ st₁ 7).2.loanAmount = none := by
  refine ⟨by norm_num [getAverageLoanAmount_st₁], ?_, by rw [getAverageLoanAmount_st₁], ?_⟩
  · exact (post_loan_amount_echo ⟨1⟩ ⟨120⟩ st₁ 7).1
      (by norm_num [getAverageLoanAmount_st₁])
  · exact (post_loan_amount_echo ⟨1⟩ ⟨100⟩ st₁ 7).2 (by rw [getAverageLoanAmount_st₁])

/-- C5: the returned message is exactly "Loan amount is above average",
"Loan amount is below average" or "Loan amount is at average" according to
whether the submitted amount is greater than, less than or equal to the
pre-submission average. -/
theorem post_message_classification (u : BrokerDto) (body : ApplicationDto)
    (st : List Application) (now : Int) :
    (body.loanAmount > getAverageLoanAmount st →
      (post u body st now).2.message = "Loan amount is above average") ∧
    (body.loanAmount < getAverageLoanAmount st →
      (post u body st now).2.message = "Loan amount is below average") ∧
    (body.loanAmount = getAverageLoanAmount st →
      (post u body st now).2.message = "Loan amount is at average") := by
  refine ⟨?_, ?_, ?_⟩
  · intro h
    simp [post, h]
  · intro h
    simp [post, h, lt_asymm h]
  · intro h
    simp [post, h]

/-- Witness for C5: against an average of 100, submitting 120, 80 and 100
produces the above, below and at messages respectively. -/
theorem post_message_classification_witness :
    (120 : Rat) > getAverageLoanAmount st₁ ∧
    (post ⟨1⟩ ⟨120⟩ st₁ 7).2.message = "Loan amount is above average" ∧
    (80 : Rat) < getAverageLoanAmount st₁ ∧
    (post ⟨1⟩ ⟨80⟩ st₁ 7).2.message = "Loan amount is below average" ∧
    (post ⟨1⟩ ⟨100⟩ st₁ 7).2.message = "Loan amount is at average" := by
  refine ⟨by norm_num [getAverageLoanAmount_st₁], ?_,
    by norm_num [getAverageLoanAmount_st₁], ?_, ?_⟩
  · exact (post_message_classification ⟨1⟩ ⟨120⟩ st₁ 7).1
      (by norm_num [getAverageLoanAmount_st₁])
  · exact (post_message_classification ⟨1⟩ ⟨80⟩ st₁ 7).2.1
      (by norm_num [getAverageLoanAmount_st₁])
  · exact (post_message_classification ⟨1⟩ ⟨100⟩ st₁ 7).2.2
      (by rw [getAverageLoanAmount_st₁])

/-- C6: the submission persists a new record with status Submitted, the
actor's broker identifier and the payload's loan amount, and the
classification in the response is computed against the average of the store
as it was before the new record was inserted. -/
theorem post_persists_and_classifies_against_prior_average (u : BrokerDto)
    (body : ApplicationDto) (st : List Application) (now : Int) :
    (post u body st now).1 =
      st ++ [{ id := st.length, brokerId := u.id,
               status := ApplicationStatus.Submitted,
               loanAmount := body.loanAmount, createdAt := now }] ∧
    (body.loanAmount > getAverageLoanAmount st →
      (post u body st now).2.message = "Loan amount is above average") ∧
    (body.loanAmount < getAverageLoanAmount st →
      (post u body st now).2.message = "Loan amount is below average") ∧
    (body.loanAmount = getAverageLoanAmount st →
      (post u body st now).2.message = "Loan amount is at average") := by
  refine ⟨rfl, ?_, ?_, ?_⟩
  · intro h
    simp [post, h]
  · intro h
    simp [post, h, lt_asymm h]
  · intro h
    simp [post, h]

/-- Witness for C6: submitting 120 against the store `st₁` appends the new
Submitted record for broker 1 and classifies against the prior average 100,
even though the post-insert average would be 110. -/
theorem post_persists_and_classifies_witness :
    (post ⟨1⟩ ⟨120⟩ st₁ 7).1 =
      st₁ ++ [{ id := 1, brokerId := 1, status := ApplicationStatus.Submitted,
                loanAmount := 120, createdAt := 7 }] ∧
    (120 : Rat) > getAverageLoanAmount st₁ ∧
    (post ⟨1⟩ ⟨120⟩ st₁ 7).2.message = "Loan amount is above average" ∧
    getAverageLoanAmount (post ⟨1⟩ ⟨120⟩ st₁ 7).1 = 110 := by
  refine ⟨(post_persists_and_classifies_against_prior_average ⟨1⟩ ⟨120⟩ st₁ 7).1,
    by norm_num [getAverageLoanAmount_st₁], ?_,
    by norm_num [post, getAverageLoanAmount, st₁]⟩
  exact (post_persists_and_classifies_against_prior_average ⟨1⟩ ⟨120⟩ st₁ 7).2.1
    (by norm_num [getAverageLoanAmount_st₁])

/-- C10: the returned `loanAmount` is null exactly when the message is
"Loan amount is at average"; whenever the message is the above- or
below-average one, `loanAmount` equals the submitted amount. -/
theorem post_null_iff_at_average (u : BrokerDto) (body : ApplicationDto)
    (st : List Application) (now : Int) :
    ((post u body st now).2.loanAmount = none ↔
      (post u body st now).2.message = "Loan amount is at average") ∧
    (((post u body st now).2.message = "Loan amount is above average" ∨
      (post u body st now).2.message = "Loan amount is below average") →
      (post u body st now).2.loanAmount = some body.loanAmount) := by
  rcases lt_trichotomy body.loanAmount (getAverageLoanAmount st) with h | h | h
  · have hne : body.loanAmount ≠ getAverageLoanAmount st := ne_of_lt h
    constructor
    · simp [post, h, lt_asymm h, hne]
    · intro _
      simp [post, hne]
  · constructor
    · simp [post, h]
    · intro hor
      have : ¬ body.loanAmount > getAverageLoanAmount st := by rw [h]; exact lt_irrefl _
      rcases hor with hm | hm <;>
        · rw [show (post u body st now).2.message = "Loan amount is at average" by
              simp [post, h]] at hm
          exact absurd hm (by decide)
  · have hne : body.loanAmount ≠ getAverageLoanAmount st := ne_of_gt h
    constructor
    · simp [post, h, hne]
    · intro _
      simp [post, hne]

/-- Witness for C10: against an average of 100, a submission of 100 has a null
echo and the at-average message, and a submission of 120 with the
above-average message echoes 120. -/
theorem post_null_iff_at_average_witness :
    ((post ⟨1⟩ ⟨100⟩ st₁ 7).2.loanAmount = none ↔
      (post ⟨1⟩ ⟨100⟩ st₁ 7).2.message = "Loan amount is at average") ∧
    (post ⟨1⟩ ⟨120⟩ st₁ 7).2.loanAmount = some 120 :=
  ⟨(post_null_iff_at_average ⟨1⟩ ⟨100⟩ st₁ 7).1,
   (post_null_iff_at_average ⟨1⟩ ⟨120⟩ st₁ 7).2
     (Or.inl (by norm_num [post, getAverageLoanAmount_st₁]; rfl))⟩

end BrokerApplications
